import Mathlib

/-
Verification of the RepCRec replicated-database concurrency-control core.

The definitions below are a shallow embedding of the Python sources:
  repcrec/lock_manager.py, repcrec/database_manager.py, repcrec/util.py,
  repcrec/site.py, repcrec/transaction_manager.py.
Python dicts are modelled as association lists (`alookup`, `aset`, `aerase`
mirror `d[k]`, `d[k] = v`, `del d[k]`); Python exceptions are modelled with
an explicit error type `PyErr`; functions that may both mutate state and then
raise return a pair of the raised error (if any) and the post-state.
-/

deriving instance DecidableEq for Except

namespace RepCRec

/-- Python exception kinds raised by the embedded code. -/
inductive PyErr where
  | ioError (msg : String)
  | valueError (msg : String)
  | typeError (msg : String)
  | assertionError (msg : String)
  deriving DecidableEq

/-- Dict lookup `d[k]` (first matching entry), `none` when the key is absent. -/
def alookup {α : Type} : List (Nat × α) → Nat → Option α
  | [], _ => none
  | p :: l, k => if p.1 = k then some p.2 else alookup l k

/-- Dict assignment `d[k] = v`: replace the entry when the key is present,
otherwise add a new entry. -/
def aset {α : Type} : List (Nat × α) → Nat → α → List (Nat × α)
  | [], k, v => [(k, v)]
  | p :: l, k, v => if p.1 = k then (k, v) :: l else p :: aset l k v

/-- Dict deletion `del d[k]` (no-op when absent, matching guarded deletes). -/
def aerase {α : Type} : List (Nat × α) → Nat → List (Nat × α)
  | [], _ => []
  | p :: l, k => if p.1 = k then aerase l k else p :: aerase l k

theorem alookup_aset {α : Type} (l : List (Nat × α)) (k : Nat) (v : α) (k' : Nat) :
    alookup (aset l k v) k' = if k' = k then some v else alookup l k' := by
  induction l with
  | nil =>
      by_cases h : k = k'
      · simp [aset, alookup, h]
      · simp [aset, alookup, h, show ¬ k' = k from fun hh => h hh.symm]
  | cons p l ih =>
      by_cases hp : p.1 = k
      · by_cases hk : k' = k
        · simp [aset, alookup, hp, hk]
        · have hpk : ¬ p.1 = k' := fun hh => hk (by rw [← hh, hp])
          have hkk : ¬ k = k' := fun hh => hk hh.symm
          simp [aset, alookup, hp, hk, hpk, hkk]
      · by_cases hpk : p.1 = k'
        · have hk : ¬ k' = k := fun hh => hp (by rw [hpk, hh])
          simp [aset, alookup, hp, hpk, hk]
        · simp [aset, alookup, hp, hpk, ih]

theorem alookup_aerase {α : Type} (l : List (Nat × α)) (k : Nat) (k' : Nat) :
    alookup (aerase l k) k' = if k' = k then none else alookup l k' := by
  induction l with
  | nil => simp [aerase, alookup]
  | cons p l ih =>
      by_cases hp : p.1 = k
      · by_cases hk : k' = k
        · subst hk; simp [aerase, alookup, hp, ih]
        · have hpk : ¬ p.1 = k' := fun hh => hk (by rw [← hh, hp])
          have hkk : ¬ k = k' := fun hh => hk hh.symm
          simp [aerase, alookup, hp, hk, hpk, hkk, ih]
      · by_cases hpk : p.1 = k'
        · have hk : ¬ k' = k := fun hh => hp (by rw [hpk, hh])
          simp [aerase, alookup, hp, hpk, hk]
        · simp [aerase, alookup, hp, hpk, ih]

/-! ## Lock manager (`repcrec/lock_manager.py`)

The lock table maps a variable to the pair of its holder transaction ids and
the lock mode. `_ALLOWED_MODES = range(3)`, so the unlocked mode 0 is also an
accepted `mode` argument of `try_lock`. -/

/-- Lock mode `_UNLOCKED = 0`. -/
def UNLOCKED : Nat := 0

/-- Lock mode `R_LOCK = 1`. -/
def R_LOCK : Nat := 1

/-- Lock mode `RW_LOCK = 2`. -/
def RW_LOCK : Nat := 2

/-- `LockManager._ALLOWED_MODES = range(3)`. -/
def ALLOWED_MODES : List Nat := [UNLOCKED, R_LOCK, RW_LOCK]

/-- The lock table `_lock_table`: variable id to (holder txids, mode). -/
abbrev LockTable := List (Nat × (List Nat × Nat))

/-- `LockManager.get_locks`: holders and mode, or `none` when the variable has
no lock-table entry. -/
def get_locks (t : LockTable) (var : Nat) : Option (List Nat × Nat) :=
  alookup t var

/-- `LockManager.try_lock(variable, txid, mode)`.  Raises `ValueError` when the
mode is not in `_ALLOWED_MODES`; otherwise returns whether the lock was taken
together with the updated lock table. -/
def try_lock (t : LockTable) (var txid mode : Nat) : Except PyErr (Bool × LockTable) :=
  if mode ∉ ALLOWED_MODES then
    .error (.valueError "Lock mode is not recognized")
  else
    let t1 := if (get_locks t var).isSome then t else aset t var ([], UNLOCKED)
    let entry := (get_locks t1 var).getD ([], UNLOCKED)
    let txids := entry.1
    let state := entry.2
    if txids.length = 0 then
      .ok (true, aset t1 var ([txid], mode))
    else if txid ∈ txids then
      if mode = RW_LOCK then
        if txids.length = 1 then .ok (true, aset t1 var (txids, mode))
        else .ok (false, t1)
      else .ok (true, t1)
    else if state = R_LOCK ∧ mode = R_LOCK then
      .ok (true, aset t1 var (txids ++ [txid], state))
    else .ok (false, t1)

/-- `LockManager.unlock(variable, txid)`: remove `txid` from the holders,
resetting the entry to `([], _UNLOCKED)` when it was the last holder. -/
def unlock (t : LockTable) (var txid : Nat) : Except PyErr LockTable :=
  match get_locks t var with
  | none => .error (.valueError "Variable not locked at all")
  | some (txids, st) =>
      if txid ∉ txids then .error (.valueError "Variable is not locked by transaction")
      else
        let txids2 := txids.erase txid
        if txids2.length = 0 then .ok (aset t var ([], UNLOCKED))
        else .ok (aset t var (txids2, st))

/-- `LockManager.unlock_all(txid)`: release every lock held by `txid`. -/
def unlock_all (t : LockTable) (txid : Nat) : LockTable :=
  t.map (fun p =>
    if txid ∈ p.2.1 then
      let txids2 := p.2.1.erase txid
      if txids2.length = 0 then (p.1, ([], UNLOCKED))
      else (p.1, (txids2, p.2.2))
    else p)

theorem try_lock_mode_ok (t : LockTable) (var txid mode : Nat) (hm : mode ∈ ALLOWED_MODES) :
    ∃ r, try_lock t var txid mode = .ok r := by
  simp only [try_lock, hm, not_true_eq_false, if_false]
  repeat' split
  all_goals exact ⟨_, rfl⟩

/-- Claim C4: when a transaction already holding the read lock on a variable
requests a write lock via `try_lock`, the lock is promoted to write mode if and
only if that transaction is the sole holder; with any other holder present,
`try_lock` returns false and the lock table is unchanged. -/
theorem claim_C4 (t : LockTable) (v txid : Nat) (txids : List Nat)
    (h : get_locks t v = some (txids, R_LOCK)) (hmem : txid ∈ txids) :
    (txids = [txid] →
      try_lock t v txid RW_LOCK = .ok (true, aset t v ([txid], RW_LOCK)) ∧
      get_locks (aset t v ([txid], RW_LOCK)) v = some ([txid], RW_LOCK)) ∧
    (txids ≠ [txid] → try_lock t v txid RW_LOCK = .ok (false, t)) := by
  have hne : txids ≠ [] := by intro hh; rw [hh] at hmem; cases hmem
  have hlen0 : ¬ txids.length = 0 := by simpa [List.length_eq_zero] using hne
  constructor
  · intro hsole
    subst hsole
    constructor
    · simp [try_lock, ALLOWED_MODES, h]
    · simp [get_locks, alookup_aset]
  · intro hnot
    have hlen : ¬ txids.length = 1 := by
      intro hl
      obtain ⟨a, ha⟩ := List.length_eq_one.mp hl
      subst ha
      simp only [List.mem_singleton] at hmem
      exact hnot (by rw [hmem])
    simp [try_lock, ALLOWED_MODES, h, hmem, hlen0, hlen]

/-- Witness for C4: promotion succeeds for the sole reader 7 of variable 1 and
fails when readers 7 and 8 share the lock. -/
theorem claim_C4_witness :
    (try_lock [(1, ([7], R_LOCK))] 1 7 RW_LOCK =
        .ok (true, aset [(1, ([7], R_LOCK))] 1 ([7], RW_LOCK)) ∧
      get_locks (aset [(1, ([7], R_LOCK))] 1 ([7], RW_LOCK)) 1 = some ([7], RW_LOCK)) ∧
    try_lock [(1, ([7, 8], R_LOCK))] 1 7 RW_LOCK = .ok (false, [(1, ([7, 8], R_LOCK))]) :=
  ⟨(claim_C4 [(1, ([7], R_LOCK))] 1 7 [7] (by decide) (by decide)).1 rfl,
    (claim_C4 [(1, ([7, 8], R_LOCK))] 1 7 [7, 8] (by decide) (by decide)).2 (by decide)⟩

/-- Counterexample to claim C6 as stated: after `unlock` removes the last
holder of variable 1, the lock-table entry is reset to `([], _UNLOCKED)` but
the key stays in the table, so `get_locks` returns that pair and not none. -/
theorem claim_C6_cex :
    unlock [(1, ([7], R_LOCK))] 1 7 = .ok [(1, ([], UNLOCKED))] ∧
    get_locks [(1, ([], UNLOCKED))] 1 = some ([], UNLOCKED) ∧
    get_locks [(1, ([], UNLOCKED))] 1 ≠ none := by decide

/-- Claim C6 (amended): after `unlock` removes the last remaining holder of a
variable, the entry is reset to the unlocked state `([], _UNLOCKED)`; a
subsequent `get_locks` on that variable returns `([], _UNLOCKED)`, not none. -/
theorem claim_C6_amended (t : LockTable) (v txid st : Nat)
    (h : get_locks t v = some ([txid], st)) :
    unlock t v txid = .ok (aset t v ([], UNLOCKED)) ∧
    get_locks (aset t v ([], UNLOCKED)) v = some ([], UNLOCKED) := by
  constructor
  · simp [unlock, h]
  · simp [get_locks, alookup_aset]

/-- Witness for the amended C6 at the concrete table `[(1, ([7], R_LOCK))]`. -/
theorem claim_C6_amended_witness :
    unlock [(1, ([7], R_LOCK))] 1 7 = .ok (aset [(1, ([7], R_LOCK))] 1 ([], UNLOCKED)) ∧
    get_locks (aset [(1, ([7], R_LOCK))] 1 ([], UNLOCKED)) 1 = some ([], UNLOCKED) :=
  claim_C6_amended [(1, ([7], R_LOCK))] 1 7 R_LOCK (by decide)

/-- Counterexample to claim C9 as stated: the unlocked mode 0 is neither the
read-lock mode 1 nor the write-lock mode 2, yet `try_lock` accepts it without
raising (it is in `_ALLOWED_MODES = range(3)`) and even claims the lock in
mode 0. -/
theorem claim_C9_cex :
    UNLOCKED ≠ R_LOCK ∧ UNLOCKED ≠ RW_LOCK ∧
    try_lock [] 1 7 UNLOCKED = .ok (true, [(1, ([7], UNLOCKED))]) := by decide

/-- Claim C9 (amended): `try_lock` raises `ValueError` exactly for mode
arguments outside `_ALLOWED_MODES = {0, 1, 2}`; all three listed modes,
including the unlocked mode 0, pass validation and produce a normal result. -/
theorem claim_C9_amended (t : LockTable) (v txid mode : Nat) :
    (mode ∉ ALLOWED_MODES →
      try_lock t v txid mode = .error (.valueError "Lock mode is not recognized")) ∧
    (mode ∈ ALLOWED_MODES → ∃ r, try_lock t v txid mode = .ok r) := by
  constructor
  · intro hm
    simp [try_lock, hm]
  · intro hm
    exact try_lock_mode_ok t v txid mode hm

/-- Witness for the amended C9: mode 5 is rejected, mode 0 is accepted. -/
theorem claim_C9_amended_witness :
    try_lock [] 1 7 5 = .error (.valueError "Lock mode is not recognized") ∧
    ∃ r, try_lock [] 1 7 0 = .ok r :=
  ⟨(claim_C9_amended [] 1 7 5).1 (by decide), (claim_C9_amended [] 1 7 0).2 (by decide)⟩

/-! ## Database store (`repcrec/database_manager.py`)

The in-memory cache `_cache` is a variable-to-value dict.  `batch_write`
validates every incoming key against the cache before mutating anything. -/

/-- The committed store: variable id to integer value. -/
abbrev DB := List (Nat × Int)

/-- `DatabaseManager.has_variable`. -/
def has_variable (db : DB) (var : Nat) : Bool :=
  (alookup db var).isSome

/-- `DatabaseManager.read`: the value, or `none` standing for the
`ValueError` raised on an unmanaged variable. -/
def db_read (db : DB) (var : Nat) : Option Int :=
  alookup db var

/-- `DatabaseManager.batch_write(values)`: first scan all pairs for an
unmanaged variable (raising `ValueError` with the cache untouched if one is
found), then apply every pair in order.  The pair returned is (raised error,
resulting cache). -/
def batch_write (db : DB) (values : List (Nat × Int)) : Option PyErr × DB :=
  match values.find? (fun p => !(has_variable db p.1)) with
  | some _ => (some (.valueError "Variable is not managed by this database"), db)
  | none => (none, values.foldl (fun d p => aset d p.1 p.2) db)

/-- The value assigned to `var` by the last pair of `values` naming it. -/
def last_write : List (Nat × Int) → Nat → Option Int
  | [], _ => none
  | p :: l, v =>
      match last_write l v with
      | some x => some x
      | none => if p.1 = v then some p.2 else none

theorem db_read_foldl_aset (values : List (Nat × Int)) (db : DB) (v : Nat) :
    db_read (values.foldl (fun d p => aset d p.1 p.2) db) v =
      match last_write values v with
      | some x => some x
      | none => db_read db v := by
  induction values generalizing db with
  | nil => simp [last_write]
  | cons p l ih =>
      rw [List.foldl_cons, ih]
      cases hl : last_write l v with
      | some x => simp [last_write, hl]
      | none =>
          by_cases hp : p.1 = v
          · simp [last_write, hl, hp, db_read, alookup_aset]
          · have hvp : ¬ v = p.1 := fun hh => hp hh.symm
            simp [last_write, hl, hp, db_read, alookup_aset, hvp]

/-- Claim C8: `batch_write` is all-or-nothing.  If any key of `values` is not
managed, it raises `ValueError` and the map is unchanged; if all keys are
managed it raises nothing, every pair is applied in order (a later pair for
the same key wins), and keys not named in `values` keep their old value. -/
theorem claim_C8 (db : DB) (values : List (Nat × Int)) :
    ((∃ p ∈ values, has_variable db p.1 = false) →
      (batch_write db values).1 =
        some (.valueError "Variable is not managed by this database") ∧
      (batch_write db values).2 = db) ∧
    ((∀ p ∈ values, has_variable db p.1 = true) →
      (batch_write db values).1 = none ∧
      (∀ v val, last_write values v = some val →
        db_read (batch_write db values).2 v = some val) ∧
      (∀ v, last_write values v = none →
        db_read (batch_write db values).2 v = db_read db v)) := by
  constructor
  · rintro ⟨p, hp, hbad⟩
    have hfind : (values.find? (fun p => !(has_variable db p.1))).isSome := by
      rw [List.find?_isSome]
      exact ⟨p, hp, by simp [hbad]⟩
    cases hf : values.find? (fun p => !(has_variable db p.1)) with
    | none => rw [hf] at hfind; simp at hfind
    | some q => simp [batch_write, hf]
  · intro hgood
    have hfind : values.find? (fun p => !(has_variable db p.1)) = none := by
      rw [List.find?_eq_none]
      intro p hp
      simp [hgood p hp]
    refine ⟨by simp [batch_write, hfind], ?_, ?_⟩
    · intro v val hlast
      simp [batch_write, hfind, db_read_foldl_aset, hlast]
    · intro v hlast
      simp [batch_write, hfind, db_read_foldl_aset, hlast]

/-- Witness for C8: writing to the unknown variable 3 is rejected with the map
unchanged; a valid batch applies all pairs with the later duplicate winning. -/
theorem claim_C8_witness :
    ((batch_write [(1, 10), (2, 20)] [(3, 5)]).1 =
        some (.valueError "Variable is not managed by this database") ∧
      (batch_write [(1, 10), (2, 20)] [(3, 5)]).2 = [(1, 10), (2, 20)]) ∧
    ((batch_write [(1, 10), (2, 20)] [(1, 7), (1, 9)]).1 = none ∧
      db_read (batch_write [(1, 10), (2, 20)] [(1, 7), (1, 9)]).2 1 = some 9 ∧
      db_read (batch_write [(1, 10), (2, 20)] [(1, 7), (1, 9)]).2 2 = some 20) :=
  ⟨(claim_C8 [(1, 10), (2, 20)] [(3, 5)]).1 ⟨(3, 5), by decide, by decide⟩,
    ((claim_C8 [(1, 10), (2, 20)] [(1, 7), (1, 9)]).2 (by decide)).1,
    ((claim_C8 [(1, 10), (2, 20)] [(1, 7), (1, 9)]).2 (by decide)).2.1 1 9 (by decide),
    ((claim_C8 [(1, 10), (2, 20)] [(1, 7), (1, 9)]).2 (by decide)).2.2 2 (by decide)⟩

/-! ## Wait-die arbiter (`repcrec/util.py`, class WaitDie)

`append_blockers` takes the lexicographic minimum of `(start_time, txid)`
pairs of one blocker set (Python `min` keeps the first minimum) and lowers
the tracked `_oldest_blocker` when strictly smaller.  `should_die` is
`tx_tick > oldest_blocker`. -/

/-- Wait-die state: the caller's age, the oldest blocker age seen so far
(initially the sentinel `1 << 31`), and the blocking txid. -/
structure WaitDie where
  tx_tick : Nat
  oldest_blocker : Nat
  blocked_by : Option Nat
  deriving DecidableEq

/-- `WaitDie.__init__`. -/
def WaitDie.init (tx_tick : Nat) : WaitDie :=
  { tx_tick := tx_tick, oldest_blocker := 2 ^ 31, blocked_by := none }

/-- Strict lexicographic order on `(start_time, txid)` pairs. -/
def lexLt (p q : Nat × Nat) : Prop :=
  p.1 < q.1 ∨ (p.1 = q.1 ∧ p.2 < q.2)

instance (p q : Nat × Nat) : Decidable (lexLt p q) := by
  unfold lexLt; exact inferInstance

/-- Python `min` over a non-empty list of pairs (first minimum wins). -/
def pymin_fold (ps : List (Nat × Nat)) (p : Nat × Nat) : Nat × Nat :=
  ps.foldl (fun acc q => if lexLt q acc then q else acc) p

/-- `WaitDie.append_blockers(waits_for)`: raises on an empty set (Python `min`
does), otherwise lowers the tracked oldest blocker. -/
def WaitDie.append_blockers (open_tx : Nat → Nat) (w : WaitDie) (waits_for : List Nat) :
    Except PyErr WaitDie :=
  match waits_for.map (fun txid => (open_tx txid, txid)) with
  | [] => .error (.valueError "min arg is an empty sequence")
  | p :: ps =>
      let m := pymin_fold ps p
      if m.1 < w.oldest_blocker then
        .ok { w with oldest_blocker := m.1, blocked_by := some m.2 }
      else .ok w

/-- `WaitDie.should_die`: `tx_tick > oldest_blocker`. -/
def WaitDie.should_die (w : WaitDie) : Bool :=
  decide (w.oldest_blocker < w.tx_tick)

/-- Fold `append_blockers` over the blocker sets collected by a scan. -/
def WaitDie.appendAll (open_tx : Nat → Nat) : WaitDie → List (List Nat) → Except PyErr WaitDie
  | w, [] => .ok w
  | w, s :: rest =>
      match WaitDie.append_blockers open_tx w s with
      | .error e => .error e
      | .ok w2 => WaitDie.appendAll open_tx w2 rest

theorem pymin_fold_spec (ps : List (Nat × Nat)) (p : Nat × Nat) :
    (pymin_fold ps p = p ∨ pymin_fold ps p ∈ ps) ∧
    (pymin_fold ps p).1 ≤ p.1 ∧ ∀ q ∈ ps, (pymin_fold ps p).1 ≤ q.1 := by
  induction ps generalizing p with
  | nil => simp [pymin_fold]
  | cons q ps ih =>
      by_cases hqp : lexLt q p
      · have hstep : pymin_fold (q :: ps) p = pymin_fold ps q := by
          simp [pymin_fold, hqp]
        obtain ⟨hmem, hle, hall⟩ := ih q
        rw [hstep]
        have hq1 : q.1 ≤ p.1 := by
          rcases hqp with h | ⟨h, _⟩
          · exact Nat.le_of_lt h
          · exact Nat.le_of_eq h
        refine ⟨?_, Nat.le_trans hle hq1, ?_⟩
        · rcases hmem with h | h
          · exact Or.inr (by rw [h]; exact List.mem_cons_self q ps)
          · exact Or.inr (List.mem_cons_of_mem q h)
        · intro r hr
          rcases List.mem_cons.mp hr with h | h
          · exact h ▸ hle
          · exact hall r h
      · have hstep : pymin_fold (q :: ps) p = pymin_fold ps p := by
          simp [pymin_fold, hqp]
        obtain ⟨hmem, hle, hall⟩ := ih p
        rw [hstep]
        have hp1 : p.1 ≤ q.1 := by
          rcases Nat.lt_or_ge p.1 q.1 with h | h
          · exact Nat.le_of_lt h
          · rcases Nat.lt_or_ge q.1 p.1 with h2 | h2
            · exact absurd (Or.inl h2) hqp
            · exact h2
        refine ⟨?_, hle, ?_⟩
        · rcases hmem with h | h
          · exact Or.inl h
          · exact Or.inr (List.mem_cons_of_mem q h)
        · intro r hr
          rcases List.mem_cons.mp hr with h | h
          · exact h ▸ Nat.le_trans hle hp1
          · exact hall r h

theorem append_blockers_ok (open_tx : Nat → Nat) (w : WaitDie) (s : List Nat) (hs : s ≠ []) :
    ∃ w2, WaitDie.append_blockers open_tx w s = .ok w2 ∧
      w2.tx_tick = w.tx_tick ∧
      w2.oldest_blocker ≤ w.oldest_blocker ∧
      (∀ b ∈ s, w2.oldest_blocker ≤ open_tx b) ∧
      (w2.oldest_blocker = w.oldest_blocker ∨ ∃ b ∈ s, w2.oldest_blocker = open_tx b) := by
  cases s with
  | nil => exact absurd rfl hs
  | cons b0 bs =>
      set ps := bs.map (fun txid => (open_tx txid, txid)) with hps
      set m := pymin_fold ps (open_tx b0, b0) with hmdef
      obtain ⟨hmem, hle, hall⟩ := pymin_fold_spec ps (open_tx b0, b0)
      have hform : ∃ b ∈ b0 :: bs, m = (open_tx b, b) := by
        rcases hmem with h | h
        · exact ⟨b0, List.mem_cons_self b0 bs, h⟩
        · rw [hps] at h
          obtain ⟨b, hb, hbe⟩ := List.mem_map.mp h
          exact ⟨b, List.mem_cons_of_mem b0 hb, hbe.symm⟩
      have hfirst : m.1 ≤ open_tx b0 := hle
      have hrest : ∀ b ∈ bs, m.1 ≤ open_tx b := by
        intro b hb
        exact hall (open_tx b, b) (by rw [hps]; exact List.mem_map.mpr ⟨b, hb, rfl⟩)
      have hunfold : WaitDie.append_blockers open_tx w (b0 :: bs) =
          if m.1 < w.oldest_blocker then
            .ok { w with oldest_blocker := m.1, blocked_by := some m.2 }
          else .ok w := by
        simp only [WaitDie.append_blockers, List.map_cons, hmdef, hps]
      by_cases hlt : m.1 < w.oldest_blocker
      · refine ⟨{ w with oldest_blocker := m.1, blocked_by := some m.2 },
          by rw [hunfold, if_pos hlt], rfl, Nat.le_of_lt hlt, ?_, ?_⟩
        · intro b hb
          rcases List.mem_cons.mp hb with h | h
          · exact h ▸ hfirst
          · exact hrest b h
        · obtain ⟨b, hb, hbe⟩ := hform
          exact Or.inr ⟨b, hb, by rw [hbe]⟩
      · refine ⟨w, by rw [hunfold, if_neg hlt], rfl, Nat.le_refl _, ?_, Or.inl rfl⟩
        intro b hb
        have hwm : w.oldest_blocker ≤ m.1 := Nat.le_of_not_lt hlt
        rcases List.mem_cons.mp hb with h | h
        · exact Nat.le_trans hwm (h ▸ hfirst)
        · exact Nat.le_trans hwm (hrest b h)

theorem appendAll_ok (open_tx : Nat → Nat) (sets : List (List Nat)) :
    ∀ w w2, (∀ s ∈ sets, s ≠ []) →
      WaitDie.appendAll open_tx w sets = .ok w2 →
      w2.tx_tick = w.tx_tick ∧ w2.oldest_blocker ≤ w.oldest_blocker ∧
      (∀ s ∈ sets, ∀ b ∈ s, w2.oldest_blocker ≤ open_tx b) ∧
      (w2.oldest_blocker = w.oldest_blocker ∨
        ∃ s ∈ sets, ∃ b ∈ s, w2.oldest_blocker = open_tx b) := by
  induction sets with
  | nil =>
      intro w w2 _ h
      cases h
      simp
  | cons s rest ih =>
      intro w w2 hne h
      obtain ⟨w1, hw1, htick1, hle1, hall1, hatt1⟩ :=
        append_blockers_ok open_tx w s (hne s (List.mem_cons_self s rest))
      rw [WaitDie.appendAll, hw1] at h
      obtain ⟨htick2, hle2, hall2, hatt2⟩ :=
        ih w1 w2 (fun s' hs' => hne s' (List.mem_cons_of_mem s hs')) h
      refine ⟨htick2.trans htick1, Nat.le_trans hle2 hle1, ?_, ?_⟩
      · intro s' hs' b hb
        rcases List.mem_cons.mp hs' with hcase | hcase
        · subst hcase
          exact Nat.le_trans hle2 (hall1 b hb)
        · exact hall2 s' hcase b hb
      · rcases hatt2 with hcase | ⟨s', hs', b, hb, hbe⟩
        · rcases hatt1 with hcase1 | ⟨b, hb, hbe⟩
          · exact Or.inl (hcase.trans hcase1)
          · exact Or.inr ⟨s, List.mem_cons_self s rest, b, hb, hcase.trans hbe⟩
        · exact Or.inr ⟨s', List.mem_cons_of_mem s hs', b, hb, hbe⟩

/-- Counterexample to claim C3 as stated: a caller with start_time 1 blocked
by the single blocker T2 whose start_time is 5 remains blocked
(`should_die` is false), yet the minimum blocker start_time 5 is NOT at most
the caller's start_time 1. -/
theorem claim_C3_cex :
    WaitDie.append_blockers (fun t => if t = 2 then 5 else 0) (WaitDie.init 1) [2] =
      .ok (WaitDie.mk 1 5 (some 2)) ∧
    (WaitDie.mk 1 5 (some 2)).should_die = false ∧
    ¬ (5 : Nat) ≤ 1 := by decide

/-- Claim C3 (amended): over any run of `append_blockers` calls on non-empty
blocker sets, the arbiter tracks the minimum blocker start_time (or keeps the
`1 << 31` sentinel), the caller dies iff its start_time exceeds that tracked
minimum, and consequently whenever the caller remains blocked by the appended
sets its start_time is at most every blocker's start_time (so at most the
minimum over the union). -/
theorem claim_C3_amended (open_tx : Nat → Nat) (tick : Nat) (sets : List (List Nat))
    (w : WaitDie) (hall : ∀ s ∈ sets, s ≠ [])
    (h : WaitDie.appendAll open_tx (WaitDie.init tick) sets = .ok w) :
    w.tx_tick = tick ∧
    (w.should_die = true ↔ w.oldest_blocker < tick) ∧
    (∀ s ∈ sets, ∀ b ∈ s, w.oldest_blocker ≤ open_tx b) ∧
    (w.oldest_blocker = 2 ^ 31 ∨ ∃ s ∈ sets, ∃ b ∈ s, w.oldest_blocker = open_tx b) ∧
    (w.should_die = false → ∀ s ∈ sets, ∀ b ∈ s, tick ≤ open_tx b) := by
  obtain ⟨htick, _, hall2, hatt⟩ := appendAll_ok open_tx sets (WaitDie.init tick) w hall h
  have htick' : w.tx_tick = tick := htick
  refine ⟨htick', ?_, hall2, by simpa [WaitDie.init] using hatt, ?_⟩
  · simp [WaitDie.should_die, htick']
  · intro hsd s hs b hb
    have h1 : ¬ w.oldest_blocker < w.tx_tick := by
      simpa [WaitDie.should_die] using hsd
    have h2 := hall2 s hs b hb
    rw [htick'] at h1
    omega

/-- Witness for the amended C3 with one blocker set `[2]`, blocker start_time
5 and caller start_time 1. -/
theorem claim_C3_amended_witness :
    (WaitDie.mk 1 5 (some 2)).tx_tick = 1 ∧
    ((WaitDie.mk 1 5 (some 2)).should_die = true ↔
      (WaitDie.mk 1 5 (some 2)).oldest_blocker < 1) ∧
    (∀ s ∈ [[2]], ∀ b ∈ s,
      (WaitDie.mk 1 5 (some 2)).oldest_blocker ≤
        (fun t => if t = 2 then (5 : Nat) else 0) b) ∧
    ((WaitDie.mk 1 5 (some 2)).oldest_blocker = 2 ^ 31 ∨
      ∃ s ∈ [[2]], ∃ b ∈ s,
        (WaitDie.mk 1 5 (some 2)).oldest_blocker =
          (fun t => if t = 2 then (5 : Nat) else 0) b) ∧
    ((WaitDie.mk 1 5 (some 2)).should_die = false →
      ∀ s ∈ [[2]], ∀ b ∈ s, 1 ≤ (fun t => if t = 2 then (5 : Nat) else 0) b) :=
  claim_C3_amended (fun t => if t = 2 then 5 else 0) 1 [[2]] (WaitDie.mk 1 5 (some 2))
    (by decide) (by decide)

/-! ## Transaction record (`repcrec/util.py`, class TxRecord) -/

/-- `TxRecord`: the transaction's id, begin tick, map from site index to the
tick of first access, liveness flag, ended flag, and whether it is
read-only.  (The source stores the site list and the blocked thunk on the
record as well; sites are passed explicitly to the functions below.) -/
structure TxRecord where
  txid : Nat
  start_time : Nat
  sites_accessed : List (Nat × Nat)
  alive : Bool
  ended : Bool
  is_ro : Bool
  deriving DecidableEq

/-- `TxRecord.site_accessed_at(index)`. -/
def TxRecord.site_accessed_at (r : TxRecord) (index : Nat) : Option Nat :=
  alookup r.sites_accessed index

/-- `TxRecord.die()`. -/
def TxRecord.die (r : TxRecord) : TxRecord :=
  { r with alive := false }

/-- `TxRecord.end()` as written in the source: raise when `_ended` is already
true; otherwise assign `self._ended = False` (util.py line 131). -/
def TxRecord.endTx (r : TxRecord) : Except PyErr TxRecord :=
  if r.ended = true then .error (.valueError "ended already")
  else .ok { r with ended := false }

/-- `TxRecord.mark_site_accessed(index, tick)`: record the tick of the first
access only. -/
def TxRecord.mark_site_accessed (r : TxRecord) (index tick : Nat) : TxRecord :=
  match alookup r.sites_accessed index with
  | some _ => r
  | none => { r with sites_accessed := aset r.sites_accessed index tick }

/-- Claim C5 (code bug): on a fresh record the first `end()` leaves the ended
flag false — the source assigns `self._ended = False` instead of `True` — so
a second `end()` also succeeds instead of raising. -/
theorem claim_C5 :
    (TxRecord.mk 1 0 [] true false false).endTx =
      .ok (TxRecord.mk 1 0 [] true false false) ∧
    ((TxRecord.mk 1 0 [] true false false).endTx.bind TxRecord.endTx) =
      .ok (TxRecord.mk 1 0 [] true false false) := by decide

/-! ## Site (`repcrec/site.py`)

A site binds a database store and a lock manager, tracks the variables
available for reading, the per-transaction pending writes, the up/down state
(`_up_since`), and the refcounted multiversion clones keyed by tick.
Operations that can mutate state and then raise return (raised error or
none, post-state); `try_read`/`try_write` return (result-or-error,
post-state) since their raises there precede any mutation of the site. -/

/-- The state of `Site`. -/
structure SiteState where
  index : Nat
  site_variables : List Nat
  up_since : Option Nat
  available_variables : List Nat
  owned_variables : List Nat
  lock_table : LockTable
  db : DB
  pending_writes : List (Nat × List (Nat × Int))
  multiversion_clones : List (Nat × (Int × DB))
  deriving DecidableEq

/-- Result of `try_read`/`try_write` (`OperationStatus` in util.py): a
successful value, or a blocked status carrying the lock holders. -/
inductive OpResult where
  | value (var : Nat) (val : Int)
  | blocked (var : Nat) (waits_for : List Nat)
  deriving DecidableEq

/-- `Site.fail()`: clear `up_since`, `available_variables`, the lock table
(a fresh `LockManager()`) and the pending writes.  Clones survive. -/
def Site.fail (s : SiteState) : SiteState :=
  { s with up_since := none, available_variables := [], lock_table := [],
           pending_writes := [] }

/-- `Site.recover(tick)`: raise unless down, assert that no variables are
available and no locks exist, then set `up_since := tick`. -/
def Site.recover (s : SiteState) (tick : Nat) : Option PyErr × SiteState :=
  if s.up_since ≠ none then (some (.valueError "Site is not down to recover"), s)
  else if ¬ s.available_variables.length = 0 then
    (some (.assertionError "Site was down with available variables"), s)
  else if ¬ s.site_variables.all (fun v => (get_locks s.lock_table v).isNone) then
    (some (.assertionError "Site was down but there are locks"), s)
  else (none, { s with up_since := some tick })

/-- `Site._release_multiversion_clone(txid, tick)`: decrement the refcount,
dropping the clone at zero. -/
def Site.release_clone (s : SiteState) (tick : Nat) : Option PyErr × SiteState :=
  match alookup s.multiversion_clones tick with
  | none => (some (.valueError "Multiversion clone is invalid"), s)
  | some (use_count, clone) =>
      if use_count - 1 = 0 then
        (none, { s with multiversion_clones := aerase s.multiversion_clones tick })
      else
        (none,
          { s with
            multiversion_clones := aset s.multiversion_clones tick (use_count - 1, clone) })

/-- The common tail of `Site.abort` and `Site.commit`: release every lock held
by the transaction, then release the multiversion clone when a token is
given. -/
def Site.finish_release (s1 : SiteState) (txid : Nat) (tick : Option Nat) :
    Option PyErr × SiteState :=
  match tick with
  | none => (none, { s1 with lock_table := unlock_all s1.lock_table txid })
  | some t => Site.release_clone { s1 with lock_table := unlock_all s1.lock_table txid } t

/-- `Site.abort(txid, tick)`: raise when down unless read-only, drop the
pending writes, release all locks, release the clone when `tick` is given. -/
def Site.abort (s : SiteState) (txid : Nat) (tick : Option Nat) : Option PyErr × SiteState :=
  if tick = none ∧ s.up_since = none then (some (.ioError "Site is down"), s)
  else
    Site.finish_release { s with pending_writes := aerase s.pending_writes txid } txid tick

/-- `Site.commit(txid, tick)`: raise when down unless read-only; batch-write
the pending writes (marking their variables available and dropping the
pending entry), release all locks, release the clone when `tick` is given.  A
`batch_write` error propagates before the later steps run. -/
def Site.commit (s : SiteState) (txid : Nat) (tick : Option Nat) : Option PyErr × SiteState :=
  if tick = none ∧ s.up_since = none then (some (.ioError "Site is down"), s)
  else
    match alookup s.pending_writes txid with
    | some writes =>
        match batch_write s.db writes with
        | (some e, db2) => (some e, { s with db := db2 })
        | (none, db2) =>
            Site.finish_release
              { s with db := db2,
                       available_variables := writes.foldl
                         (fun a p => if p.1 ∈ a then a else a ++ [p.1])
                         s.available_variables,
                       pending_writes := aerase s.pending_writes txid } txid tick
    | none => Site.finish_release s txid tick

/-- The pending-write scan in `Site.try_read`: the value of the transaction's
first pending write of the variable, if any (the loop breaks at the first
match). -/
def pending_read (pending : List (Nat × List (Nat × Int))) (txid var : Nat) : Option Int :=
  match alookup pending txid with
  | some writes => (writes.find? (fun p => p.1 == var)).map (fun p => p.2)
  | none => none

/-- `Site.try_read(txid, variable, tick)`.  The source's checks in order:
raise `IOError` when the site is down and no snapshot token is given; return
not-applicable when the variable is not hosted; read the snapshot when a token
is given (ignoring the down state); gate on `available_for_read`/ownership;
attempt the read lock and return the first pending-write value or the
committed value, or the blocking holders.  The branches are grouped on the
token here, preserving the order of the checks on each path. -/
def Site.try_read (s : SiteState) (txid var : Nat) (tick : Option Nat) :
    Except PyErr (Option OpResult) × SiteState :=
  match tick with
  | some t =>
      if var ∉ s.site_variables then (.ok none, s)
      else
        match alookup s.multiversion_clones t with
        | some (_, clone) =>
            match alookup clone var with
            | some val => (.ok (some (.value var val)), s)
            | none => (.error (.valueError "Variable is not managed by this database"), s)
        | none => (.error (.valueError "Multiversion clone does not exist"), s)
  | none =>
      if s.up_since = none then (.error (.ioError "Site is down"), s)
      else if var ∉ s.site_variables then (.ok none, s)
      else if var ∉ s.owned_variables ∧ var ∉ s.available_variables then (.ok none, s)
      else
        match try_lock s.lock_table var txid R_LOCK with
        | .error e => (.error e, s)
        | .ok (true, lt) =>
            match pending_read s.pending_writes txid var with
            | some val => (.ok (some (.value var val)), { s with lock_table := lt })
            | none =>
                match alookup s.db var with
                | some val => (.ok (some (.value var val)), { s with lock_table := lt })
                | none => (.error (.valueError "Variable is not managed by this database"),
                    { s with lock_table := lt })
        | .ok (false, lt) =>
            match get_locks lt var with
            | some (holders, _) =>
                (.ok (some (.blocked var holders)), { s with lock_table := lt })
            | none => (.error (.typeError "NoneType object is not subscriptable"),
                { s with lock_table := lt })

/-- `Site.try_write(txid, variable, value)`: the site must be up and host the
variable; a write lock is attempted and on success the pair is appended to the
transaction's pending writes. -/
def Site.try_write (s : SiteState) (txid var : Nat) (value : Int) :
    Except PyErr (Option OpResult) × SiteState :=
  if s.up_since = none then (.error (.ioError "Site is down"), s)
  else if var ∉ s.site_variables then (.ok none, s)
  else
    match try_lock s.lock_table var txid RW_LOCK with
    | .error e => (.error e, s)
    | .ok (true, lt) =>
        (.ok (some (.value var value)),
          { s with lock_table := lt,
                   pending_writes := aset s.pending_writes txid
                     (((alookup s.pending_writes txid).getD []) ++ [(var, value)]) })
    | .ok (false, lt) =>
        match get_locks lt var with
        | some (holders, _) => (.ok (some (.blocked var holders)), { s with lock_table := lt })
        | none => (.error (.typeError "NoneType object is not subscriptable"),
            { s with lock_table := lt })

/-- `Site.multiversion_clone(tick)`: the site must be up; create the clone
with refcount 1 or bump the refcount. -/
def Site.multiversion_clone (s : SiteState) (tick : Nat) : Except PyErr SiteState :=
  if s.up_since = none then .error (.ioError "Site is down")
  else
    match alookup s.multiversion_clones tick with
    | none => .ok { s with multiversion_clones := aset s.multiversion_clones tick (1, s.db) }
    | some (c, clone) =>
        .ok { s with multiversion_clones := aset s.multiversion_clones tick (c + 1, clone) }

/-- The operations a site supports, for stating state-machine invariants. -/
inductive SiteOp where
  | opFail
  | opRecover (tick : Nat)
  | opAbort (txid : Nat) (tick : Option Nat)
  | opCommit (txid : Nat) (tick : Option Nat)
  | opTryRead (txid var : Nat) (tick : Option Nat)
  | opTryWrite (txid var : Nat) (value : Int)
  | opClone (tick : Nat)
  deriving DecidableEq

/-- The post-state of one site operation (for `multiversion_clone`, whose
raise precedes any mutation, an error leaves the state unchanged). -/
def stepSite (s : SiteState) : SiteOp → SiteState
  | .opFail => Site.fail s
  | .opRecover t => (Site.recover s t).2
  | .opAbort tx t => (Site.abort s tx t).2
  | .opCommit tx t => (Site.commit s tx t).2
  | .opTryRead tx v t => (Site.try_read s tx v t).2
  | .opTryWrite tx v val => (Site.try_write s tx v val).2
  | .opClone t =>
      match Site.multiversion_clone s t with
      | .ok s2 => s2
      | .error _ => s

/-- The down-site invariant of claim C7: a down site has no locks, no pending
writes and nothing available for reading. -/
def site_inv (s : SiteState) : Bool :=
  match s.up_since with
  | some _ => true
  | none =>
      s.lock_table.isEmpty && s.pending_writes.isEmpty && s.available_variables.isEmpty

theorem site_inv_of_up (s : SiteState) (u : Nat) (h : s.up_since = some u) :
    site_inv s = true := by
  unfold site_inv
  rw [h]

theorem site_inv_down_iff (s : SiteState) (h : s.up_since = none) :
    site_inv s = true ↔
      s.lock_table = [] ∧ s.pending_writes = [] ∧ s.available_variables = [] := by
  unfold site_inv
  rw [h]
  simp [List.isEmpty_iff, and_assoc]

theorem release_clone_up_since (s : SiteState) (t : Nat) :
    (Site.release_clone s t).2.up_since = s.up_since := by
  unfold Site.release_clone
  repeat' split
  all_goals rfl

theorem release_clone_lock_table (s : SiteState) (t : Nat) :
    (Site.release_clone s t).2.lock_table = s.lock_table := by
  unfold Site.release_clone
  repeat' split
  all_goals rfl

theorem release_clone_pending (s : SiteState) (t : Nat) :
    (Site.release_clone s t).2.pending_writes = s.pending_writes := by
  unfold Site.release_clone
  repeat' split
  all_goals rfl

theorem release_clone_avail (s : SiteState) (t : Nat) :
    (Site.release_clone s t).2.available_variables = s.available_variables := by
  unfold Site.release_clone
  repeat' split
  all_goals rfl

theorem site_inv_fail (s : SiteState) : site_inv (Site.fail s) = true :=
  (site_inv_down_iff (Site.fail s) rfl).mpr ⟨rfl, rfl, rfl⟩

theorem site_inv_recover (s : SiteState) (t : Nat) (h : site_inv s = true) :
    site_inv (Site.recover s t).2 = true := by
  unfold Site.recover
  split
  · exact h
  · split
    · exact h
    · split
      · exact h
      · exact site_inv_of_up _ t rfl

theorem finish_release_up_since (s1 : SiteState) (txid : Nat) (tick : Option Nat) :
    (Site.finish_release s1 txid tick).2.up_since = s1.up_since := by
  unfold Site.finish_release
  cases tick with
  | none => rfl
  | some t => rw [release_clone_up_since]

theorem finish_release_lock_table (s1 : SiteState) (txid : Nat) (tick : Option Nat) :
    (Site.finish_release s1 txid tick).2.lock_table = unlock_all s1.lock_table txid := by
  unfold Site.finish_release
  cases tick with
  | none => rfl
  | some t => rw [release_clone_lock_table]

theorem finish_release_pending (s1 : SiteState) (txid : Nat) (tick : Option Nat) :
    (Site.finish_release s1 txid tick).2.pending_writes = s1.pending_writes := by
  unfold Site.finish_release
  cases tick with
  | none => rfl
  | some t => rw [release_clone_pending]

theorem finish_release_avail (s1 : SiteState) (txid : Nat) (tick : Option Nat) :
    (Site.finish_release s1 txid tick).2.available_variables = s1.available_variables := by
  unfold Site.finish_release
  cases tick with
  | none => rfl
  | some t => rw [release_clone_avail]

theorem site_inv_abort (s : SiteState) (txid : Nat) (tick : Option Nat)
    (h : site_inv s = true) : site_inv (Site.abort s txid tick).2 = true := by
  cases hup : s.up_since with
  | some u =>
      apply site_inv_of_up _ u
      unfold Site.abort
      split
      · exact hup
      · rw [finish_release_up_since]; exact hup
  | none =>
      obtain ⟨hl, hp, ha⟩ := (site_inv_down_iff s hup).mp h
      cases tick with
      | none =>
          have hs : (Site.abort s txid none).2 = s := by
            unfold Site.abort
            rw [if_pos ⟨rfl, hup⟩]
          rw [hs]; exact h
      | some t =>
          have habort : (Site.abort s txid (some t)) =
              Site.finish_release { s with pending_writes := aerase s.pending_writes txid }
                txid (some t) := by
            unfold Site.abort
            rw [if_neg (by simp)]
          rw [habort]
          have hu : (Site.finish_release
              { s with pending_writes := aerase s.pending_writes txid }
              txid (some t)).2.up_since = none := by
            rw [finish_release_up_since]; exact hup
          rw [site_inv_down_iff _ hu]
          refine ⟨?_, ?_, ?_⟩
          · rw [finish_release_lock_table]
            show unlock_all s.lock_table txid = []
            rw [hl]; rfl
          · rw [finish_release_pending]
            show aerase s.pending_writes txid = []
            rw [hp]; rfl
          · rw [finish_release_avail]
            exact ha

theorem site_inv_commit (s : SiteState) (txid : Nat) (tick : Option Nat)
    (h : site_inv s = true) : site_inv (Site.commit s txid tick).2 = true := by
  cases hup : s.up_since with
  | some u =>
      apply site_inv_of_up _ u
      unfold Site.commit
      repeat' split
      all_goals first
        | exact hup
        | (rw [finish_release_up_since]; exact hup)
  | none =>
      obtain ⟨hl, hp, ha⟩ := (site_inv_down_iff s hup).mp h
      cases tick with
      | none =>
          have hs : (Site.commit s txid none).2 = s := by
            unfold Site.commit
            rw [if_pos ⟨rfl, hup⟩]
          rw [hs]; exact h
      | some t =>
          have hcommit : (Site.commit s txid (some t)) =
              Site.finish_release s txid (some t) := by
            unfold Site.commit
            rw [if_neg (by simp), hp]
            rfl
          rw [hcommit]
          have hu : (Site.finish_release s txid (some t)).2.up_since = none := by
            rw [finish_release_up_since]; exact hup
          rw [site_inv_down_iff _ hu]
          refine ⟨?_, ?_, ?_⟩
          · rw [finish_release_lock_table, hl]; rfl
          · rw [finish_release_pending]; exact hp
          · rw [finish_release_avail]; exact ha

theorem try_read_down (s : SiteState) (txid var : Nat) (tick : Option Nat)
    (hd : s.up_since = none) : (Site.try_read s txid var tick).2 = s := by
  unfold Site.try_read
  cases tick with
  | none => rw [if_pos hd]
  | some t =>
      repeat' split
      all_goals rfl

theorem site_inv_try_read (s : SiteState) (txid var : Nat) (tick : Option Nat)
    (h : site_inv s = true) : site_inv (Site.try_read s txid var tick).2 = true := by
  cases hup : s.up_since with
  | some u =>
      apply site_inv_of_up _ u
      unfold Site.try_read
      repeat' split
      all_goals exact hup
  | none =>
      rw [try_read_down s txid var tick hup]
      exact h

theorem site_inv_try_write (s : SiteState) (txid var : Nat) (value : Int)
    (h : site_inv s = true) : site_inv (Site.try_write s txid var value).2 = true := by
  cases hup : s.up_since with
  | some u =>
      apply site_inv_of_up _ u
      unfold Site.try_write
      repeat' split
      all_goals exact hup
  | none =>
      have hs : (Site.try_write s txid var value).2 = s := by
        unfold Site.try_write
        rw [if_pos hup]
      rw [hs]; exact h

theorem multiversion_clone_cases (s : SiteState) (t : Nat) :
    (s.up_since = none ∧ Site.multiversion_clone s t = .error (.ioError "Site is down")) ∨
    (∃ cl, Site.multiversion_clone s t = .ok { s with multiversion_clones := cl }) := by
  unfold Site.multiversion_clone
  by_cases hup : s.up_since = none
  · rw [if_pos hup]; exact Or.inl ⟨hup, rfl⟩
  · rw [if_neg hup]
    split
    · exact Or.inr ⟨_, rfl⟩
    · exact Or.inr ⟨_, rfl⟩

theorem site_inv_clone (s : SiteState) (t : Nat) (h : site_inv s = true) :
    site_inv (stepSite s (.opClone t)) = true := by
  rcases multiversion_clone_cases s t with ⟨_, he⟩ | ⟨cl, he⟩
  · simp [stepSite, he, h]
  · simp only [stepSite, he]
    cases hup : s.up_since with
    | some u => exact site_inv_of_up _ u rfl
    | none =>
        obtain ⟨hl, hp, ha⟩ := (site_inv_down_iff s hup).mp h
        exact (site_inv_down_iff _ rfl).mpr ⟨hl, hp, ha⟩

/-- Claim C7: whenever a site is down, its lock table holds no locks, its
pending-writes map is empty and its available-for-read set is empty; the
invariant is preserved by every site operation, established unconditionally by
`fail`, and `recover` on a down site satisfying the invariant passes its
checks without error. -/
theorem claim_C7 (s : SiteState) (op : SiteOp) (tick : Nat) (h : site_inv s = true) :
    site_inv (stepSite s op) = true ∧
    site_inv (Site.fail s) = true ∧
    (s.up_since = none → (Site.recover s tick).1 = none) := by
  refine ⟨?_, site_inv_fail s, ?_⟩
  · cases op with
    | opFail => exact site_inv_fail s
    | opRecover t => exact site_inv_recover s t h
    | opAbort tx t => exact site_inv_abort s tx t h
    | opCommit tx t => exact site_inv_commit s tx t h
    | opTryRead tx v t => exact site_inv_try_read s tx v t h
    | opTryWrite tx v val => exact site_inv_try_write s tx v val h
    | opClone t => exact site_inv_clone s t h
  · intro hd
    obtain ⟨hl, hp, ha⟩ := (site_inv_down_iff s hd).mp h
    simp [Site.recover, hd, hl, ha, get_locks, alookup]

/-- Witness for C7: a concrete down site with empty volatile state, stepped
by a read-only abort. -/
theorem claim_C7_witness :
    site_inv (stepSite (SiteState.mk 1 [2] none [] [] [] [(2, 20)] [] [])
      (.opAbort 3 (some 4))) = true ∧
    site_inv (Site.fail (SiteState.mk 1 [2] none [] [] [] [(2, 20)] [] [])) = true ∧
    ((SiteState.mk 1 [2] none [] [] [] [(2, 20)] [] []).up_since = none →
      (Site.recover (SiteState.mk 1 [2] none [] [] [] [(2, 20)] [] []) 5).1 = none) :=
  claim_C7 (SiteState.mk 1 [2] none [] [] [] [(2, 20)] [] []) (.opAbort 3 (some 4)) 5
    (by decide)

theorem find?_first_key (pre post : List (Nat × Int)) (var : Nat) (val1 : Int)
    (hpre : ∀ p ∈ pre, p.1 ≠ var) :
    (pre ++ (var, val1) :: post).find? (fun p => p.1 == var) = some (var, val1) := by
  induction pre with
  | nil =>
      rw [List.nil_append]
      exact List.find?_cons_of_pos _ (by simp)
  | cons q pre ih =>
      rw [List.cons_append, List.find?_cons_of_neg]
      · exact ih (fun p hp => hpre p (List.mem_cons_of_mem _ hp))
      · simp [hpre q (List.mem_cons_self q pre)]

/-- Claim C10: when a transaction holds the write lock on a variable at an up
site and its pending-writes list holds more than one entry for that variable,
`try_read` with no snapshot token returns the value of the earliest-appended
pending write (the scan breaks at the first match), not the most recent one,
and leaves the site unchanged. -/
theorem claim_C10 (s : SiteState) (txid var : Nat) (writes pre post : List (Nat × Int))
    (val1 : Int) (u : Nat) (txids : List Nat)
    (hup : s.up_since = some u)
    (hvar : var ∈ s.site_variables)
    (havail : var ∈ s.owned_variables ∨ var ∈ s.available_variables)
    (hlock : get_locks s.lock_table var = some (txids, RW_LOCK))
    (hmem : txid ∈ txids)
    (hpend : alookup s.pending_writes txid = some writes)
    (hsplit : writes = pre ++ (var, val1) :: post)
    (hpre : ∀ p ∈ pre, p.1 ≠ var)
    (hmulti : ∃ q ∈ post, q.1 = var) :
    Site.try_read s txid var none = (.ok (some (.value var val1)), s) := by
  have hne0 : ¬ txids.length = 0 := by
    intro hh
    rw [List.length_eq_zero] at hh
    rw [hh] at hmem
    cases hmem
  have halook : alookup s.lock_table var = some (txids, RW_LOCK) := hlock
  have htl : try_lock s.lock_table var txid R_LOCK = .ok (true, s.lock_table) := by
    simp [try_lock, ALLOWED_MODES, get_locks, halook, hmem, hne0, R_LOCK, RW_LOCK, UNLOCKED]
  have hfind : writes.find? (fun p => p.1 == var) = some (var, val1) := by
    rw [hsplit]
    exact find?_first_key pre post var val1 hpre
  have hne : ¬ s.up_since = none := by simp [hup]
  rcases havail with hav | hav <;>
    simp [Site.try_read, hne, hvar, hav, htl, pending_read, hpend, hfind]

/-- Witness for C10: site 1 owns variable 3, transaction 7 holds the write
lock and has pending writes `[(3, 10), (3, 99)]`; the read returns 10, the
earliest pending value, not 99. -/
theorem claim_C10_witness :
    Site.try_read
      (SiteState.mk 1 [3] (some 0) [] [3] [(3, ([7], RW_LOCK))] [(3, 30)]
        [(7, [(3, 10), (3, 99)])] [])
      7 3 none =
      (.ok (some (.value 3 10)),
        SiteState.mk 1 [3] (some 0) [] [3] [(3, ([7], RW_LOCK))] [(3, 30)]
          [(7, [(3, 10), (3, 99)])] []) :=
  claim_C10
    (SiteState.mk 1 [3] (some 0) [] [3] [(3, ([7], RW_LOCK))] [(3, 30)]
      [(7, [(3, 10), (3, 99)])] [])
    7 3 [(3, 10), (3, 99)] [] [(3, 99)] 10 0 [7]
    rfl (by decide) (Or.inl (by decide)) (by decide) (by decide) (by decide) rfl
    (by simp) ⟨(3, 99), by decide, rfl⟩

/-! ## Transaction manager (`repcrec/transaction_manager.py`)

`_end` decides between commit and abort from the transaction's accessed-site
history and applies the chosen action to every up site; `_read` scans the
transaction's sites and then arbitrates between success, blocking and
wait-die death. -/

/-- `transaction.start_time if transaction.is_read_only else None`: the
snapshot token passed to the site operations. -/
def ro_token (tx : TxRecord) : Option Nat :=
  if tx.is_ro then some tx.start_time else none

/-- The per-site abort test of `TransactionManager._end`: the transaction
accessed the site, and the site is now down or recovered after the first
access (`up_since > sites_accessed[index]`). -/
def site_bounced (tx : TxRecord) (site : SiteState) : Bool :=
  match TxRecord.site_accessed_at tx site.index with
  | none => false
  | some accessed_at =>
      match site.up_since with
      | none => true
      | some u => decide (accessed_at < u)

/-- The action `_end` chooses: true for commit, false for abort.  An alive
read-only transaction always commits; an alive read-write transaction commits
iff no accessed site is down or bounced; a dead transaction aborts. -/
def end_action_commits (tx : TxRecord) (sites : List SiteState) : Bool :=
  if tx.alive then
    if tx.is_ro then true
    else ! sites.any (site_bounced tx)
  else false

/-- `_end` applies the chosen action to every up site of the transaction's
site list; down sites are skipped. -/
def end_apply (tx : TxRecord) (sites : List SiteState) : List SiteState :=
  sites.map (fun site =>
    if site.up_since.isSome then
      if end_action_commits tx sites then (Site.commit site tx.txid (ro_token tx)).2
      else (Site.abort site tx.txid (ro_token tx)).2
    else site)

theorem site_bounced_false_iff (tx : TxRecord) (site : SiteState) :
    site_bounced tx site = false ↔
      ∀ acc, TxRecord.site_accessed_at tx site.index = some acc →
        ∃ u, site.up_since = some u ∧ u ≤ acc := by
  unfold site_bounced
  cases hacc : TxRecord.site_accessed_at tx site.index with
  | none => simp
  | some acc =>
      cases hup : site.up_since with
      | none => simp
      | some u => simp [Nat.not_lt]

/-- Claim C1: for an alive non-read-only transaction, `_end` commits iff
every accessed site is up with `up_since` at most the tick of the
transaction's first access (equivalently, it aborts iff some accessed site is
down or bounced); the chosen action, commit or abort, is then applied to
exactly the up sites of the transaction's site list. -/
theorem claim_C1 (tx : TxRecord) (sites : List SiteState)
    (halive : tx.alive = true) (hro : tx.is_ro = false) :
    (end_action_commits tx sites = true ↔
      ∀ site ∈ sites, ∀ acc, TxRecord.site_accessed_at tx site.index = some acc →
        ∃ u, site.up_since = some u ∧ u ≤ acc) ∧
    (end_action_commits tx sites = true →
      end_apply tx sites = sites.map (fun site =>
        if site.up_since.isSome then (Site.commit site tx.txid none).2 else site)) ∧
    (end_action_commits tx sites = false →
      end_apply tx sites = sites.map (fun site =>
        if site.up_since.isSome then (Site.abort site tx.txid none).2 else site)) := by
  have h1 : end_action_commits tx sites = ! sites.any (site_bounced tx) := by
    simp [end_action_commits, halive, hro]
  refine ⟨?_, ?_, ?_⟩
  · rw [h1]
    cases hany : sites.any (site_bounced tx) with
    | true =>
        simp only [Bool.not_true]
        constructor
        · intro hcontra; cases hcontra
        · intro hall
          exfalso
          obtain ⟨site, hs, hb⟩ := List.any_eq_true.mp hany
          have hfalse := (site_bounced_false_iff tx site).mpr (hall site hs)
          rw [hfalse] at hb
          cases hb
    | false =>
        simp only [Bool.not_false, true_iff]
        intro site hs
        have : site_bounced tx site = false := by
          by_contra hb
          rw [Bool.not_eq_false] at hb
          rw [List.any_eq_true.mpr ⟨site, hs, hb⟩] at hany
          cases hany
        exact (site_bounced_false_iff tx site).mp this
  · intro hc
    simp [end_apply, hc, ro_token, hro]
  · intro hc
    simp [end_apply, hc, ro_token, hro]

/-- Witness for C1: a transaction that accessed site 1 at tick 2, with site 1
up since tick 0, commits there; the same site list after site 1 bounced to
up-since 5 gives an abort. -/
theorem claim_C1_witness :
    (end_action_commits (TxRecord.mk 9 0 [(1, 2)] true false false)
        [SiteState.mk 1 [2] (some 0) [] [] [] [(2, 20)] [] []] = true ↔
      ∀ site ∈ [SiteState.mk 1 [2] (some 0) [] [] [] [(2, 20)] [] []],
        ∀ acc, TxRecord.site_accessed_at (TxRecord.mk 9 0 [(1, 2)] true false false)
            site.index = some acc →
          ∃ u, site.up_since = some u ∧ u ≤ acc) ∧
    (end_action_commits (TxRecord.mk 9 0 [(1, 2)] true false false)
        [SiteState.mk 1 [2] (some 0) [] [] [] [(2, 20)] [] []] = true →
      end_apply (TxRecord.mk 9 0 [(1, 2)] true false false)
          [SiteState.mk 1 [2] (some 0) [] [] [] [(2, 20)] [] []] =
        [SiteState.mk 1 [2] (some 0) [] [] [] [(2, 20)] [] []].map (fun site =>
          if site.up_since.isSome then (Site.commit site 9 none).2 else site)) ∧
    (end_action_commits (TxRecord.mk 9 0 [(1, 2)] true false false)
        [SiteState.mk 1 [2] (some 0) [] [] [] [(2, 20)] [] []] = false →
      end_apply (TxRecord.mk 9 0 [(1, 2)] true false false)
          [SiteState.mk 1 [2] (some 0) [] [] [] [(2, 20)] [] []] =
        [SiteState.mk 1 [2] (some 0) [] [] [] [(2, 20)] [] []].map (fun site =>
          if site.up_since.isSome then (Site.abort site 9 none).2 else site)) :=
  claim_C1 (TxRecord.mk 9 0 [(1, 2)] true false false)
    [SiteState.mk 1 [2] (some 0) [] [] [] [(2, 20)] [] []] rfl rfl

theorem try_read_down_eq (s : SiteState) (txid var : Nat) (hd : s.up_since = none) :
    Site.try_read s txid var none = (.error (.ioError "Site is down"), s) := by
  unfold Site.try_read
  rw [if_pos hd]

theorem try_read_up_no_io (s : SiteState) (txid var : Nat) (u : Nat)
    (hu : s.up_since = some u) (m : String) (s2 : SiteState) :
    Site.try_read s txid var none ≠ (.error (.ioError m), s2) := by
  intro h
  unfold Site.try_read at h
  rw [if_neg (by simp [hu])] at h
  obtain ⟨⟨b, lt⟩, hr⟩ := try_lock_mode_ok s.lock_table var txid R_LOCK (by decide)
  rw [hr] at h
  cases b <;> repeat' split at h
  all_goals simp_all

/-- One scan accumulator of `_read`: the wait-die state, whether any site
reported a lock conflict, and the number of downed sites seen. -/
structure ScanAcc where
  wd : WaitDie
  blocked : Bool
  num_down : Nat
  deriving DecidableEq

/-- The site loop of `TransactionManager._read`: in order over the
transaction's sites, a successful read returns its value at once; sites not
hosting the variable are skipped; a lock conflict appends the holders to the
wait-die arbiter and sets `blocked`; an `IOError` (down site) increments
`num_down`; any other exception propagates. -/
def tm_read_scan (open_tx : Nat → Nat) (txid var : Nat) (ro_tok : Option Nat) :
    List SiteState → ScanAcc → Except PyErr (Option Int × ScanAcc)
  | [], acc => .ok (none, acc)
  | site :: rest, acc =>
      match Site.try_read site txid var ro_tok with
      | (.error (.ioError _), _) =>
          tm_read_scan open_tx txid var ro_tok rest
            { acc with num_down := acc.num_down + 1 }
      | (.error e, _) => .error e
      | (.ok none, _) => tm_read_scan open_tx txid var ro_tok rest acc
      | (.ok (some (.value _ v)), _) => .ok (some v, acc)
      | (.ok (some (.blocked _ waits)), _) =>
          match WaitDie.append_blockers open_tx acc.wd waits with
          | .error e => .error e
          | .ok wd2 =>
              tm_read_scan open_tx txid var ro_tok rest
                { acc with wd := wd2, blocked := true }

/-- The decision `_read` reaches after the scan: a successful value, a
wait-die kill, a block waiting on a lock, a block waiting for a site to
recover, or a kill because the variable is nowhere available. -/
inductive ReadDecision where
  | success (value : Int)
  | dieWaitDie
  | waitBlocked
  | waitNoSites
  | dieNowhere
  deriving DecidableEq

/-- The post-scan arbitration of `_read`: blocked goes to wait-die; else a
positive `num_down` means return False and stay blocked; else the variable is
nowhere available and the transaction dies. -/
def tm_read_decide (acc : ScanAcc) : ReadDecision :=
  if acc.blocked then
    if acc.wd.should_die then .dieWaitDie else .waitBlocked
  else if acc.num_down > 0 then .waitNoSites
  else .dieNowhere

/-- `_read` for an alive open transaction: scan the sites, then decide. -/
def tm_read (open_tx : Nat → Nat) (start_time txid var : Nat) (ro_tok : Option Nat)
    (sites : List SiteState) : Except PyErr ReadDecision :=
  match tm_read_scan open_tx txid var ro_tok sites
      (ScanAcc.mk (WaitDie.init start_time) false 0) with
  | .error e => .error e
  | .ok (some v, _) => .ok (.success v)
  | .ok (none, acc) => .ok (tm_read_decide acc)

/-- Whether `_read` returns True (operation finished, possibly by killing the
transaction) rather than False (the transaction stays blocked). -/
def decision_returns_true : ReadDecision → Bool
  | .waitBlocked => false
  | .waitNoSites => false
  | _ => true

/-- Whether the decision kills the transaction (`die()` then `_end`). -/
def decision_kills : ReadDecision → Bool
  | .dieWaitDie => true
  | .dieNowhere => true
  | _ => false

/-- A site at which the read-write read reports a lock conflict. -/
def read_conflict (txid var : Nat) (site : SiteState) : Bool :=
  match Site.try_read site txid var none with
  | (.ok (some (.blocked _ _)), _) => true
  | _ => false

theorem tm_read_scan_finished (open_tx : Nat → Nat) (txid var : Nat) :
    ∀ (sites : List SiteState) (acc0 acc : ScanAcc),
      tm_read_scan open_tx txid var none sites acc0 = .ok (none, acc) →
      acc.blocked = (acc0.blocked || sites.any (read_conflict txid var)) ∧
      acc.num_down = acc0.num_down +
        sites.countP (fun site => site.up_since.isNone) := by
  intro sites
  induction sites with
  | nil =>
      intro acc0 acc h
      simp only [tm_read_scan, Except.ok.injEq, Prod.mk.injEq, true_and] at h
      subst h
      simp
  | cons site rest ih =>
      intro acc0 acc h
      cases htr : Site.try_read site txid var none with
      | mk res s2 =>
          cases res with
          | error e =>
              cases e with
              | ioError m =>
                  have hupt : site.up_since.isNone = true := by
                    cases hu : site.up_since with
                    | none => rfl
                    | some u => exact absurd htr (try_read_up_no_io site txid var u hu m s2)
                  have hc : read_conflict txid var site = false := by
                    simp [read_conflict, htr]
                  simp only [tm_read_scan, htr] at h
                  obtain ⟨hb, hn⟩ := ih _ acc h
                  refine ⟨?_, ?_⟩
                  · rw [hb, List.any_cons, hc]
                    simp
                  · rw [hn, List.countP_cons, hupt]
                    simp
                    omega
              | valueError m =>
                  simp only [tm_read_scan, htr] at h
                  simp at h
              | typeError m =>
                  simp only [tm_read_scan, htr] at h
                  simp at h
              | assertionError m =>
                  simp only [tm_read_scan, htr] at h
                  simp at h
          | ok r =>
              have hupf : site.up_since.isNone = false := by
                cases hu : site.up_since with
                | none =>
                    rw [try_read_down_eq site txid var hu] at htr
                    cases htr
                | some u => rfl
              cases r with
              | none =>
                  have hc : read_conflict txid var site = false := by
                    simp [read_conflict, htr]
                  simp only [tm_read_scan, htr] at h
                  obtain ⟨hb, hn⟩ := ih _ acc h
                  refine ⟨?_, ?_⟩
                  · rw [hb, List.any_cons, hc]
                    simp
                  · rw [hn, List.countP_cons, hupf]
                    simp
              | some res =>
                  cases res with
                  | value w v =>
                      simp only [tm_read_scan, htr] at h
                      simp at h
                  | blocked w waits =>
                      have hc : read_conflict txid var site = true := by
                        simp [read_conflict, htr]
                      simp only [tm_read_scan, htr] at h
                      cases hab : WaitDie.append_blockers open_tx acc0.wd waits with
                      | error e => rw [hab] at h; cases h
                      | ok wd2 =>
                          rw [hab] at h
                          obtain ⟨hb, hn⟩ := ih _ acc h
                          refine ⟨?_, ?_⟩
                          · rw [hb, List.any_cons, hc]
                            simp
                          · rw [hn, List.countP_cons, hupf]
                            simp

/-- Claim C2: for a read by a read-write transaction whose scan over all the
transaction's sites finished without a successful read: if at least one site
reported a lock conflict, the wait-die decision is applied (the transaction
dies iff `should_die`, else it stays blocked); if no site reported a conflict
but some hosting site was down, `_read` returns False and the transaction
stays blocked; if no conflict and no down site, the variable is available
nowhere and the transaction is killed. -/
theorem claim_C2 (open_tx : Nat → Nat) (st txid var : Nat) (sites : List SiteState)
    (acc : ScanAcc)
    (h : tm_read_scan open_tx txid var none sites
        (ScanAcc.mk (WaitDie.init st) false 0) = .ok (none, acc)) :
    (acc.blocked = true ↔ ∃ site ∈ sites, read_conflict txid var site = true) ∧
    (acc.blocked = true →
      tm_read open_tx st txid var none sites =
        .ok (if acc.wd.should_die then .dieWaitDie else .waitBlocked) ∧
      decision_kills .dieWaitDie = true ∧
      decision_returns_true .waitBlocked = false) ∧
    (acc.blocked = false →
      (∃ site ∈ sites, var ∈ site.site_variables ∧ site.up_since = none) →
      tm_read open_tx st txid var none sites = .ok .waitNoSites ∧
      decision_returns_true .waitNoSites = false ∧
      decision_kills .waitNoSites = false) ∧
    (acc.blocked = false →
      (∀ site ∈ sites, site.up_since ≠ none) →
      tm_read open_tx st txid var none sites = .ok .dieNowhere ∧
      decision_kills .dieNowhere = true) := by
  obtain ⟨hb, hn⟩ := tm_read_scan_finished open_tx txid var sites _ acc h
  have htm : tm_read open_tx st txid var none sites = .ok (tm_read_decide acc) := by
    unfold tm_read
    rw [h]
  refine ⟨?_, ?_, ?_, ?_⟩
  · rw [hb]
    simp [List.any_eq_true]
  · intro hbl
    refine ⟨?_, rfl, rfl⟩
    rw [htm]
    simp [tm_read_decide, hbl]
  · intro hbl hsite
    refine ⟨?_, rfl, rfl⟩
    rw [htm]
    have hpos : 0 < sites.countP (fun site => site.up_since.isNone) := by
      rw [List.countP_pos]
      obtain ⟨site, hs, _, hd⟩ := hsite
      exact ⟨site, hs, by simp [hd]⟩
    have hgt : acc.num_down > 0 := by rw [hn]; omega
    simp [tm_read_decide, hbl, hgt]
  · intro hbl hup
    refine ⟨?_, rfl⟩
    rw [htm]
    have hzero : sites.countP (fun site => site.up_since.isNone) = 0 := by
      rw [List.countP_eq_zero]
      intro site hs
      simp [Option.isNone_iff_eq_none]
      exact hup site hs
    have hnd : ¬ acc.num_down > 0 := by rw [hn, hzero]; simp
    simp [tm_read_decide, hbl, hnd]

/-- Witness for C2: one down site hosting variable 2; the scan finishes with
no conflict and one down site, so the read returns False and stays blocked. -/
theorem claim_C2_witness :
    tm_read (fun _ => 0) 0 1 2 none
        [SiteState.mk 1 [2] none [] [] [] [(2, 20)] [] []] = .ok .waitNoSites ∧
    decision_returns_true .waitNoSites = false ∧
    decision_kills .waitNoSites = false :=
  (claim_C2 (fun _ => 0) 0 1 2 [SiteState.mk 1 [2] none [] [] [] [(2, 20)] [] []]
      (ScanAcc.mk (WaitDie.init 0) false 1) (by decide)).2.2.1 rfl
    ⟨SiteState.mk 1 [2] none [] [] [] [(2, 20)] [] [], by decide, by decide, rfl⟩

end RepCRec
